import Mathlib

/-!
Verification of the px4ctrl controller core (`src/px4ctrl/src/controller.cpp`).

Two shallow embeddings are used:

* the thrust-to-acceleration estimator (`ControlBase::estimateThrustModel`
  and the timed-thrust history maintained at the end of each
  `calculateControl`) is embedded over `ℚ`, time measured in seconds, so
  that every statement is exact and executable;
* the two control laws (`LinearControl::calculateControl`,
  `GeometricControl::calculateControl`) are embedded over `ℝ`, since they
  use trigonometric functions and square roots (Eigen quaternion and
  rotation-matrix formulas are transcribed literally).
-/

namespace Px4ctrl

/-! ## Estimator embedding (exact arithmetic over ℚ)

`timed_thrust_` is a `std::queue<std::pair<ros::Time,double>>`; we model it
as a list whose head is the queue front (the oldest sample). -/

/-- One entry of `timed_thrust_`: a (timestamp, commanded thrust) pair. -/
structure TimedThrust where
  t : ℚ
  thr : ℚ
deriving DecidableEq, Repr

/-- Estimator state mutated by `ControlBase::estimateThrustModel`:
the sample history, the gain `thr2acc_` and the covariance `P_`. -/
structure EstState where
  timed_thrust : List TimedThrust
  thr2acc : ℚ
  P : ℚ
deriving DecidableEq, Repr

/-- The RLS update of controller.cpp lines 51-54, given the forgetting
factor `rho2_`, the measured vertical acceleration `est_a(2)`, the consumed
thrust `thr`, and the prior `(thr2acc_, P_)`.  Returns the new pair.

    double gamma = 1 / (rho2_ + thr * P_ * thr);
    double K     = gamma * P_ * thr;
    thr2acc_     = thr2acc_ + K * (est_a(2) - thr * thr2acc_);
    P_           = (1 - K * thr) * P_ / rho2_;  -/
def rlsUpdate (rho2 est_a_z thr gain P : ℚ) : ℚ × ℚ :=
  let gamma := 1 / (rho2 + thr * P * thr)
  let K := gamma * P * thr
  (gain + K * (est_a_z - thr * gain), (1 - K * thr) * P / rho2)

/-- The scanning loop of `ControlBase::estimateThrustModel` (lines 26-60),
acting on the queue and the `(thr2acc_, P_)` pair.  Front sample older than
45 ms: pop and continue; younger than 35 ms: return false, sample kept;
otherwise: pop it, perform one RLS update, return true.  Empty queue:
return false. -/
def tryUpdateAux (est_a_z rho2 t_now : ℚ) :
    List TimedThrust → ℚ → ℚ → Bool × List TimedThrust × ℚ × ℚ
  | [], gain, P => (false, [], gain, P)
  | tt :: rest, gain, P =>
    if t_now - tt.t > 45/1000 then
      tryUpdateAux est_a_z rho2 t_now rest gain P
    else if t_now - tt.t < 35/1000 then
      (false, tt :: rest, gain, P)
    else
      let gp := rlsUpdate rho2 est_a_z tt.thr gain P
      (true, rest, gp.1, gp.2)

/-- `ControlBase::estimateThrustModel`, assembled on the estimator state. -/
def estimateThrustModel (est_a_z rho2 t_now : ℚ) (st : EstState) :
    Bool × EstState :=
  let r := tryUpdateAux est_a_z rho2 t_now st.timed_thrust st.thr2acc st.P
  (r.1, ⟨r.2.1, r.2.2.1, r.2.2.2⟩)

/-- The maximal front segment of samples older than 45 ms, i.e. exactly
what the `pop(); continue;` branch of the loop discards. -/
def dropStale (t_now : ℚ) : List TimedThrust → List TimedThrust
  | [] => []
  | tt :: rest =>
    if t_now - tt.t > 45/1000 then dropStale t_now rest else tt :: rest

/-- The trailing history-bounding loop of both `calculateControl`s:
`while (timed_thrust_.size() > 100) { timed_thrust_.pop(); }`. -/
def evictOver100 {α : Type} (l : List α) : List α :=
  if _h : l.length > 100 then evictOver100 l.tail else l
termination_by l.length
decreasing_by
  simp only [List.length_tail]
  omega

theorem dropStale_isSuffix (t_now : ℚ) (q : List TimedThrust) :
    (dropStale t_now q).IsSuffix q := by
  induction q with
  | nil => simp [dropStale]
  | cons tt rest ih =>
    by_cases h : t_now - tt.t > 45/1000
    · simpa [dropStale, h] using ih.trans (List.suffix_cons tt rest)
    · simp [dropStale, h]

theorem tryUpdateAux_eq_dropStale (a rho2 t_now : ℚ) (q : List TimedThrust)
    (gain P : ℚ) :
    tryUpdateAux a rho2 t_now q gain P
      = tryUpdateAux a rho2 t_now (dropStale t_now q) gain P := by
  induction q with
  | nil => simp [dropStale]
  | cons tt rest ih =>
    by_cases h : t_now - tt.t > 45/1000
    · simpa [tryUpdateAux, dropStale, h] using ih
    · simp [dropStale, h]

theorem dropStale_head_fresh (t_now : ℚ) (q : List TimedThrust)
    (tt : TimedThrust) (rest : List TimedThrust)
    (h : dropStale t_now q = tt :: rest) : t_now - tt.t ≤ 45/1000 := by
  induction q with
  | nil => simp [dropStale] at h
  | cons s srest ih =>
    by_cases hs : t_now - s.t > 45/1000
    · exact ih (by simpa [dropStale, hs] using h)
    · rw [dropStale, if_neg hs] at h
      cases h
      exact le_of_not_lt hs

theorem tryUpdateAux_false_gainP (a rho2 t_now : ℚ) :
    ∀ (q : List TimedThrust) (gain P : ℚ),
      (tryUpdateAux a rho2 t_now q gain P).1 = false →
      (tryUpdateAux a rho2 t_now q gain P).2.2.1 = gain ∧
      (tryUpdateAux a rho2 t_now q gain P).2.2.2 = P := by
  intro q
  induction q with
  | nil => intro gain P _; simp [tryUpdateAux]
  | cons tt rest ih =>
    intro gain P h
    by_cases h45 : t_now - tt.t > 45/1000
    · have := ih gain P (by simpa [tryUpdateAux, h45] using h)
      simpa [tryUpdateAux, h45] using this
    · by_cases h35 : t_now - tt.t < 35/1000
      · simp [tryUpdateAux, h45, h35]
      · simp [tryUpdateAux, h45, h35] at h

theorem evictOver100_eq_drop {α : Type} (l : List α) :
    evictOver100 l = l.drop (l.length - 100) := by
  induction l with
  | nil => simp [evictOver100]
  | cons a t ih =>
    by_cases h : (a :: t).length > 100
    · rw [evictOver100, dif_pos h]
      simp only [List.tail_cons]
      rw [ih]
      have h' : (a :: t).length - 100 = (t.length - 100) + 1 := by
        simp only [List.length_cons] at h ⊢
        omega
      rw [h', List.drop_succ_cons]
    · rw [evictOver100, dif_neg h]
      have h' : (a :: t).length - 100 = 0 := by omega
      rw [h', List.drop_zero]

theorem evictOver100_length_le {α : Type} (l : List α) :
    (evictOver100 l).length ≤ 100 := by
  rw [evictOver100_eq_drop, List.length_drop]
  omega

/-- The command recording performed at the end of each `calculateControl`:
push the new sample at the back, then evict from the front while the
history holds more than 100 samples (lines 129-132 and 213-216). -/
def recordCommand {α : Type} (q : List α) (s : α) : List α :=
  evictOver100 (q ++ [s])

theorem foldl_recordCommand_eq_drop {α : Type} (l : List α) :
    l.foldl recordCommand [] = l.drop (l.length - 100) := by
  induction l using List.reverseRecOn with
  | nil => simp
  | append_singleton t a ih =>
    rw [List.foldl_append, List.foldl_cons, List.foldl_nil, ih,
      recordCommand, evictOver100_eq_drop]
    by_cases h : t.length < 100
    · have h1 : t.length - 100 = 0 := by omega
      have h2 : (t.drop 0 ++ [a]).length - 100 = 0 := by
        simp only [List.drop_zero, List.length_append, List.length_cons,
          List.length_nil]
        omega
      have h3 : (t ++ [a]).length - 100 = 0 := by
        simp only [List.length_append, List.length_cons, List.length_nil]
        omega
      simp [h1, h2, h3]
    · have hlen : (t.drop (t.length - 100)).length = 100 := by
        rw [List.length_drop]; omega
      have h2 : (t.drop (t.length - 100) ++ [a]).length - 100 = 1 := by
        simp only [List.length_append, List.length_cons, List.length_nil,
          hlen]
      rw [h2, List.drop_append_of_le_length (by omega), List.drop_drop]
      have h3 : (t ++ [a]).length - 100 = 1 + (t.length - 100) := by
        simp only [List.length_append, List.length_cons, List.length_nil]
        omega
      rw [h3, List.drop_append_of_le_length (by omega)]
      have h4 : t.length - 100 + 1 = 1 + (t.length - 100) := by omega
      rw [h4]

/-! ## Estimator claims -/

/-- C1: on every call of the estimator update, the samples are scanned from
the queue front (the oldest); every sample of the maximal stale front
segment (age strictly over 45 ms) is removed; if afterwards the history is
empty the call returns `false`; the first remaining sample has age at most
45 ms, and if its age is under 35 ms the call returns `false` with that
sample (and everything behind it) retained; if its age lies in
[35 ms, 45 ms] exactly that sample is consumed, exactly one RLS update is
performed and the call returns `true` (the remaining queue is exactly the
rest, so no second update can happen in the same call); with an empty
history the call returns `false` and changes nothing.  Every sample still
in the history after the call has age at most 45 ms (for this last part the
queue front must be the oldest sample, i.e. timestamps non-decreasing from
front to back — the caller contract of the spec). -/
theorem tryUpdate_window_behavior (a rho2 t_now gain P : ℚ)
    (q : List TimedThrust)
    (hsorted : q.Pairwise (fun s s' => s.t ≤ s'.t)) :
    (tryUpdateAux a rho2 t_now [] gain P = (false, [], gain, P))
    ∧ (dropStale t_now q = [] →
        tryUpdateAux a rho2 t_now q gain P = (false, [], gain, P))
    ∧ (∀ tt rest, dropStale t_now q = tt :: rest →
        t_now - tt.t ≤ 45/1000
        ∧ (t_now - tt.t < 35/1000 →
            tryUpdateAux a rho2 t_now q gain P
              = (false, tt :: rest, gain, P))
        ∧ (35/1000 ≤ t_now - tt.t →
            tryUpdateAux a rho2 t_now q gain P
              = (true, rest, (rlsUpdate rho2 a tt.thr gain P).1,
                  (rlsUpdate rho2 a tt.thr gain P).2)))
    ∧ (∀ s ∈ (tryUpdateAux a rho2 t_now q gain P).2.1,
        t_now - s.t ≤ 45/1000) := by
  refine ⟨by simp [tryUpdateAux], ?_, ?_, ?_⟩
  · intro h
    rw [tryUpdateAux_eq_dropStale, h]
    simp [tryUpdateAux]
  · intro tt rest h
    have hfresh := dropStale_head_fresh t_now q tt rest h
    refine ⟨hfresh, ?_, ?_⟩
    · intro h35
      rw [tryUpdateAux_eq_dropStale, h]
      simp [tryUpdateAux, not_lt.mpr hfresh, h35]
    · intro h35
      rw [tryUpdateAux_eq_dropStale, h]
      simp [tryUpdateAux, not_lt.mpr hfresh, not_lt.mpr h35]
  · have hPW : (dropStale t_now q).Pairwise (fun s s' => s.t ≤ s'.t) :=
      List.Pairwise.sublist (dropStale_isSuffix t_now q).sublist hsorted
    rw [tryUpdateAux_eq_dropStale]
    cases hds : dropStale t_now q with
    | nil => simp [tryUpdateAux]
    | cons tt rest =>
      have hfresh := dropStale_head_fresh t_now q tt rest hds
      rw [hds, List.pairwise_cons] at hPW
      by_cases h35 : t_now - tt.t < 35/1000
      · intro s hs
        simp only [tryUpdateAux, if_neg (not_lt.mpr hfresh), if_pos h35,
          List.mem_cons] at hs
        rcases hs with rfl | hs
        · exact hfresh
        · have := hPW.1 s hs
          linarith
      · intro s hs
        simp only [tryUpdateAux, if_neg (not_lt.mpr hfresh),
          if_neg h35] at hs
        have := hPW.1 s hs
        linarith

theorem tryUpdate_window_behavior_witness :
    tryUpdateAux 0 1 1 [⟨1 - 46/1000, 1⟩, ⟨1 - 36/1000, 2⟩] 1 1
      = (true, [], (rlsUpdate 1 0 2 1 1).1, (rlsUpdate 1 0 2 1 1).2) := by
  have h := tryUpdate_window_behavior 0 1 1 1 1
    [⟨1 - 46/1000, 1⟩, ⟨1 - 36/1000, 2⟩]
    (by norm_num [List.pairwise_cons])
  exact (h.2.2.1 ⟨1 - 36/1000, 2⟩ [] (by norm_num [dropStale])).2.2
    (by norm_num)

/-- C2: whenever the estimator update fires, with consumed thrust `tt.thr`,
prior gain `gain` and prior covariance `P`, the new gain and covariance are
exactly the RLS formulas
`gain + gamma*P*thr*(a - thr*gain)` and `(1 - gamma*P*thr*thr)*P/rho2`
with `gamma = 1/(rho2 + thr*P*thr)`, in exact rational arithmetic, and the
consumed sample lies in the [35 ms, 45 ms] age window. -/
theorem rls_update_formulas (a rho2 t_now : ℚ) :
    ∀ (q : List TimedThrust) (gain P : ℚ),
      (tryUpdateAux a rho2 t_now q gain P).1 = true →
      ∃ tt ∈ q, 35/1000 ≤ t_now - tt.t ∧ t_now - tt.t ≤ 45/1000 ∧
        (tryUpdateAux a rho2 t_now q gain P).2.2.1
          = gain + 1 / (rho2 + tt.thr * P * tt.thr) * P * tt.thr
              * (a - tt.thr * gain) ∧
        (tryUpdateAux a rho2 t_now q gain P).2.2.2
          = (1 - 1 / (rho2 + tt.thr * P * tt.thr) * P * tt.thr * tt.thr)
              * P / rho2 := by
  intro q
  induction q with
  | nil => intro gain P h; simp [tryUpdateAux] at h
  | cons tt rest ih =>
    intro gain P h
    by_cases h45 : t_now - tt.t > 45/1000
    · obtain ⟨s, hs, hprop⟩ := ih gain P (by simpa [tryUpdateAux, h45] using h)
      exact ⟨s, List.mem_cons_of_mem _ hs,
        by simpa [tryUpdateAux, h45] using hprop⟩
    · by_cases h35 : t_now - tt.t < 35/1000
      · simp [tryUpdateAux, h45, h35] at h
      · exact ⟨tt, List.mem_cons_self _ _, le_of_not_lt h35,
          le_of_not_lt h45,
          by simp [tryUpdateAux, h45, h35, rlsUpdate],
          by simp [tryUpdateAux, h45, h35, rlsUpdate]⟩

theorem rls_update_formulas_witness :
    ∃ tt ∈ [TimedThrust.mk 0 2], 35/1000 ≤ (4/100 : ℚ) - tt.t ∧
      (4/100 : ℚ) - tt.t ≤ 45/1000 ∧
      (tryUpdateAux 0 1 (4/100) [TimedThrust.mk 0 2] 1 1).2.2.1
        = 1 + 1 / (1 + tt.thr * 1 * tt.thr) * 1 * tt.thr
            * (0 - tt.thr * 1) ∧
      (tryUpdateAux 0 1 (4/100) [TimedThrust.mk 0 2] 1 1).2.2.2
        = (1 - 1 / (1 + tt.thr * 1 * tt.thr) * 1 * tt.thr * tt.thr)
            * 1 / 1 :=
  rls_update_formulas 0 1 (4/100) [TimedThrust.mk 0 2] 1 1
    (by norm_num [tryUpdateAux])

/-- C8 is refuted as stated (see `covariance_inflation_counterexample`);
amended claim: for forgetting factor `rho2 = 1` and non-negative prior
covariance, every RLS update leaves the covariance non-negative and no
greater than before.  For `rho2 < 1` the update can inflate the
covariance by the factor `1/rho2`. -/
theorem covariance_nonincreasing_rho2_one (a thr gain P : ℚ) (hP : 0 ≤ P) :
    0 ≤ (rlsUpdate 1 a thr gain P).2 ∧ (rlsUpdate 1 a thr gain P).2 ≤ P := by
  have h0 : 0 ≤ thr * P * thr := by nlinarith [mul_nonneg hP (sq_nonneg thr)]
  have hd : (1:ℚ) ≤ 1 + thr * P * thr := by linarith
  have hd0 : (1:ℚ) + thr * P * thr ≠ 0 := by linarith
  have hP' : (rlsUpdate 1 a thr gain P).2 = P / (1 + thr * P * thr) := by
    simp only [rlsUpdate]
    field_simp
    ring
  rw [hP']
  exact ⟨div_nonneg hP (by linarith), div_le_self hP hd⟩

theorem covariance_nonincreasing_rho2_one_witness :
    0 ≤ (rlsUpdate 1 0 1 0 2).2 ∧ (rlsUpdate 1 0 1 0 2).2 ≤ 2 :=
  covariance_nonincreasing_rho2_one 0 1 0 2 (by norm_num)

/-- C8 counterexample: with forgetting factor `rho2 = 1/2` (within the
claimed range `0 < rho2 ≤ 1`) a successful update on a 40 ms old sample of
thrust 0 doubles the covariance from 1000000 to 2000000, so the covariance
after a successful update is not always no greater in magnitude than
before. -/
theorem covariance_inflation_counterexample :
    (0:ℚ) < 1/2 ∧ (1:ℚ)/2 ≤ 1 ∧
    (estimateThrustModel 0 (1/2) (4/100) ⟨[⟨0, 0⟩], 1, 1000000⟩).1 = true ∧
    (estimateThrustModel 0 (1/2) (4/100) ⟨[⟨0, 0⟩], 1, 1000000⟩).2.P
      = 2000000 ∧
    ¬ ((2000000:ℚ) ≤ 1000000) := by
  norm_num [estimateThrustModel, tryUpdateAux, rlsUpdate]

/-- C9: whenever `estimateThrustModel` returns `false` (no sample old
enough, including an empty history), the gain `thr2acc_` and the
covariance `P_` are exactly unchanged by the call. -/
theorem estimator_failure_atomic (a rho2 t_now : ℚ) (st : EstState)
    (hFalse : (estimateThrustModel a rho2 t_now st).1 = false) :
    (estimateThrustModel a rho2 t_now st).2.thr2acc = st.thr2acc ∧
    (estimateThrustModel a rho2 t_now st).2.P = st.P := by
  have h := tryUpdateAux_false_gainP a rho2 t_now st.timed_thrust
    st.thr2acc st.P (by simpa [estimateThrustModel] using hFalse)
  simpa [estimateThrustModel] using h

theorem estimator_failure_atomic_witness :
    (estimateThrustModel 1 1 1 ⟨[], 3, 7⟩).2.thr2acc = 3 ∧
    (estimateThrustModel 1 1 1 ⟨[], 3, 7⟩).2.P = 7 :=
  estimator_failure_atomic 1 1 1 ⟨[], 3, 7⟩
    (by norm_num [estimateThrustModel, tryUpdateAux])

/-! ## Control-law embedding (over ℝ)

Vectors and quaternions are embedded componentwise, following Eigen's
formulas (Hamilton product, conjugate-over-squared-norm inverse,
standard quaternion-to-rotation-matrix and rotation-matrix-to-quaternion
conversions). -/

/-- A 3-vector (`Eigen::Vector3d`). -/
structure Vec3 where
  x : ℝ
  y : ℝ
  z : ℝ

/-- A quaternion (`Eigen::Quaterniond`), `w` the real part. -/
structure Quat where
  w : ℝ
  x : ℝ
  y : ℝ
  z : ℝ

theorem vec3_ext_iff (a b : Vec3) :
    a = b ↔ a.x = b.x ∧ a.y = b.y ∧ a.z = b.z := by
  constructor
  · rintro rfl; exact ⟨rfl, rfl, rfl⟩
  · rintro ⟨hx, hy, hz⟩
    cases a; cases b
    simp_all

theorem quat_ext_iff (a b : Quat) :
    a = b ↔ a.w = b.w ∧ a.x = b.x ∧ a.y = b.y ∧ a.z = b.z := by
  constructor
  · rintro rfl; exact ⟨rfl, rfl, rfl, rfl⟩
  · rintro ⟨hw, hx, hy, hz⟩
    cases a; cases b
    simp_all

def vadd (a b : Vec3) : Vec3 := ⟨a.x + b.x, a.y + b.y, a.z + b.z⟩

def vsub (a b : Vec3) : Vec3 := ⟨a.x - b.x, a.y - b.y, a.z - b.z⟩

/-- `K.asDiagonal() * v`: elementwise scaling by a gain vector. -/
def vdiagmul (k v : Vec3) : Vec3 := ⟨k.x * v.x, k.y * v.y, k.z * v.z⟩

def vdot (a b : Vec3) : ℝ := a.x * b.x + a.y * b.y + a.z * b.z

def vcross (a b : Vec3) : Vec3 :=
  ⟨a.y * b.z - a.z * b.y, a.z * b.x - a.x * b.z, a.x * b.y - a.y * b.x⟩

def vzero : Vec3 := ⟨0, 0, 0⟩

/-- `v.normalized()`: componentwise division by the Euclidean norm.
(For the zero vector Eigen produces NaN; over ℝ the division-by-zero
convention yields the zero vector — in either case not a unit vector,
which is what the degeneracy claims are about.) -/
noncomputable def vnormalized (v : Vec3) : Vec3 :=
  let n := Real.sqrt (vdot v v)
  ⟨v.x / n, v.y / n, v.z / n⟩

/-- Hamilton quaternion product, as implemented by Eigen. -/
def qmul (a b : Quat) : Quat :=
  ⟨a.w * b.w - a.x * b.x - a.y * b.y - a.z * b.z,
   a.w * b.x + a.x * b.w + a.y * b.z - a.z * b.y,
   a.w * b.y - a.x * b.z + a.y * b.w + a.z * b.x,
   a.w * b.z + a.x * b.y - a.y * b.x + a.z * b.w⟩

def qnormSq (a : Quat) : ℝ := a.w ^ 2 + a.x ^ 2 + a.y ^ 2 + a.z ^ 2

/-- `q.inverse()`: Eigen returns `conjugate() / squaredNorm()` (and the
zero quaternion when the squared norm is zero, which coincides with the
division-by-zero convention of ℝ). -/
noncomputable def qinv (a : Quat) : Quat :=
  let n := qnormSq a
  ⟨a.w / n, -a.x / n, -a.y / n, -a.z / n⟩

/-- `Eigen::AngleAxisd(t, UnitX())` as a quaternion. -/
noncomputable def qAngleAxisX (t : ℝ) : Quat :=
  ⟨Real.cos (t / 2), Real.sin (t / 2), 0, 0⟩

/-- `Eigen::AngleAxisd(t, UnitY())` as a quaternion. -/
noncomputable def qAngleAxisY (t : ℝ) : Quat :=
  ⟨Real.cos (t / 2), 0, Real.sin (t / 2), 0⟩

/-- `Eigen::AngleAxisd(t, UnitZ())` as a quaternion. -/
noncomputable def qAngleAxisZ (t : ℝ) : Quat :=
  ⟨Real.cos (t / 2), 0, 0, Real.sin (t / 2)⟩

/-- Third column of `q.toRotationMatrix()` (the body-up axis b3). -/
def rotCol2 (q : Quat) : Vec3 :=
  ⟨2 * (q.x * q.z + q.w * q.y),
   2 * (q.y * q.z - q.w * q.x),
   1 - 2 * (q.x ^ 2 + q.y ^ 2)⟩

/-- The two-argument arctangent (C `atan2`), used by `fromQuaternion2yaw`.
No claim depends on its values, only on its being a fixed function. -/
noncomputable def atan2 (y x : ℝ) : ℝ :=
  if 0 < x then Real.arctan (y / x)
  else if x < 0 ∧ 0 ≤ y then Real.arctan (y / x) + Real.pi
  else if x < 0 ∧ y < 0 then Real.arctan (y / x) - Real.pi
  else if x = 0 ∧ 0 < y then Real.pi / 2
  else if x = 0 ∧ y < 0 then -(Real.pi / 2)
  else 0

/-- `ControlBase::fromQuaternion2yaw` (controller.cpp lines 6-10). -/
noncomputable def fromQuaternion2yaw (q : Quat) : ℝ :=
  atan2 (2 * (q.x * q.y + q.w * q.z))
    (q.w * q.w + q.x * q.x - q.y * q.y - q.z * q.z)

/-- `Eigen::Quaterniond(Eigen::Matrix3d)`: rotation matrix (given by its
three columns) to quaternion, transcribed from Eigen's
`quaternionbase_assign_impl` (branch on the trace, else on the largest
diagonal entry, ties resolved as Eigen's `maxCoeff` does). -/
noncomputable def quatFromMat (c0 c1 c2 : Vec3) : Quat :=
  let tr := c0.x + c1.y + c2.z
  if 0 < tr then
    let s := Real.sqrt (tr + 1)
    ⟨0.5 * s, (c1.z - c2.y) * (0.5 / s), (c2.x - c0.z) * (0.5 / s),
      (c0.y - c1.x) * (0.5 / s)⟩
  else if c1.y > c0.x then
    if c2.z > c1.y then
      -- i = 2, j = 0, k = 1
      let s := Real.sqrt (c2.z - c0.x - c1.y + 1)
      ⟨(c0.y - c1.x) * (0.5 / s), (c2.x + c0.z) * (0.5 / s),
        (c2.y + c1.z) * (0.5 / s), 0.5 * s⟩
    else
      -- i = 1, j = 2, k = 0
      let s := Real.sqrt (c1.y - c2.z - c0.x + 1)
      ⟨(c2.x - c0.z) * (0.5 / s), (c1.x + c0.y) * (0.5 / s), 0.5 * s,
        (c1.z + c2.y) * (0.5 / s)⟩
  else if c2.z > c0.x then
    -- i = 2, j = 0, k = 1
    let s := Real.sqrt (c2.z - c0.x - c1.y + 1)
    ⟨(c0.y - c1.x) * (0.5 / s), (c2.x + c0.z) * (0.5 / s),
      (c2.y + c1.z) * (0.5 / s), 0.5 * s⟩
  else
    -- i = 0, j = 1, k = 2
    let s := Real.sqrt (c0.x - c1.y - c2.z + 1)
    ⟨(c1.z - c2.y) * (0.5 / s), 0.5 * s, (c0.y + c1.x) * (0.5 / s),
      (c0.z + c2.x) * (0.5 / s)⟩

/-- `Parameter_t` fields used by the control laws. -/
structure Parameter where
  Kp0 : ℝ
  Kp1 : ℝ
  Kp2 : ℝ
  Kv0 : ℝ
  Kv1 : ℝ
  Kv2 : ℝ
  gra : ℝ
  hover_percentage : ℝ

/-- `Desired_State_t`: desired position, velocity, acceleration, yaw. -/
structure DesiredState where
  p : Vec3
  v : Vec3
  a : Vec3
  yaw : ℝ

/-- `Odom_Data_t`: measured position, velocity, orientation. -/
structure OdomData where
  p : Vec3
  v : Vec3
  q : Quat

/-- `Imu_Data_t`: measured orientation. -/
structure ImuData where
  q : Quat

/-- `Controller_Output_t`: collective thrust and commanded attitude. -/
structure CtrlOutput where
  thrust : ℝ
  q : Quat

/-- The estimator state as seen by the control laws: the gain `thr2acc_`,
the covariance `P_`, and the timed-thrust history. -/
structure CtrlState where
  thr2acc : ℝ
  P : ℝ
  timed_thrust : List (ℝ × ℝ)

/-- `ControlBase::computeDesiredCollectiveThrustSignal` (lines 15-22):
unconditionally divides the desired vertical acceleration by the current
gain estimate `thr2acc_`. -/
noncomputable def computeDesiredCollectiveThrustSignal (thr2acc : ℝ)
    (des_acc : Vec3) : ℝ :=
  des_acc.z / thr2acc

/-- `ControlBase::resetThrustMapping` (lines 64-67). -/
noncomputable def resetThrustMapping (param : Parameter) (st : CtrlState) :
    CtrlState :=
  { st with thr2acc := param.gra / param.hover_percentage, P := 1000000 }

/-- The desired-acceleration computation shared verbatim by both laws
(lines 83-88 and 150-156):
`des.a + Kv∘(des.v − odom.v) + Kp∘(des.p − odom.p) + (0,0,gra)`. -/
def desAccOf (param : Parameter) (des : DesiredState) (odom : OdomData) :
    Vec3 :=
  let Kp : Vec3 := ⟨param.Kp0, param.Kp1, param.Kp2⟩
  let Kv : Vec3 := ⟨param.Kv0, param.Kv1, param.Kv2⟩
  vadd (vadd (vadd des.a (vdiagmul Kv (vsub des.v odom.v)))
      (vdiagmul Kp (vsub des.p odom.p)))
    ⟨0, 0, param.gra⟩

/-- The candidate attitude of `LinearControl::calculateControl`
(lines 91-100): yaw/pitch/roll angle-axis composition, with roll and
pitch recovered by the small-angle inversion using the odometry yaw. -/
noncomputable def linearCandidateQ (param : Parameter) (des : DesiredState)
    (odom : OdomData) : Quat :=
  let des_acc := desAccOf param des odom
  let yaw_odom := fromQuaternion2yaw odom.q
  let sin := Real.sin yaw_odom
  let cos := Real.cos yaw_odom
  let roll := (des_acc.x * sin - des_acc.y * cos) / param.gra
  let pitch := (des_acc.x * cos + des_acc.y * sin) / param.gra
  qmul (qmul (qAngleAxisZ des.yaw) (qAngleAxisY pitch)) (qAngleAxisX roll)

/-- `LinearControl::calculateControl` (lines 78-134): computes the output
`u` and the successor estimator state (thrust-sample push plus eviction);
`thr2acc_` and `P_` are read, never written.  The debug snapshot is the
return value in C++ and carries no state, so it is not modelled. -/
noncomputable def linearCalculateControl (param : Parameter)
    (st : CtrlState) (t_now : ℝ) (des : DesiredState) (odom : OdomData)
    (imu : ImuData) : CtrlOutput × CtrlState :=
  let des_acc := desAccOf param des odom
  let thrust := computeDesiredCollectiveThrustSignal st.thr2acc des_acc
  let q := linearCandidateQ param des odom
  let uq := qmul (qmul imu.q (qinv odom.q)) q
  (⟨thrust, uq⟩,
    { st with timed_thrust := recordCommand st.timed_thrust (t_now, thrust) })

/-- b3c of `GeometricControl::calculateControl` (line 164):
the normalized desired acceleration. -/
noncomputable def geomB3c (param : Parameter) (des : DesiredState)
    (odom : OdomData) : Vec3 :=
  vnormalized (desAccOf param des odom)

/-- The yaw reference vector a_yaw (line 167). -/
noncomputable def geomAYaw (yaw : ℝ) : Vec3 :=
  ⟨Real.cos yaw, Real.sin yaw, 0⟩

/-- b2c of `GeometricControl::calculateControl` (line 168):
`b3c.cross(a_yaw).normalized()`. -/
noncomputable def geomB2c (param : Parameter) (des : DesiredState)
    (odom : OdomData) : Vec3 :=
  vnormalized (vcross (geomB3c param des odom) (geomAYaw des.yaw))

/-- The candidate (desired) attitude of `GeometricControl` (lines 171-177):
the quaternion of the matrix `[b2c×b3c | b2c | b3c]`. -/
noncomputable def geomCandidateQ (param : Parameter) (des : DesiredState)
    (odom : OdomData) : Quat :=
  let b3c := geomB3c param des odom
  let b2c := geomB2c param des odom
  quatFromMat (vcross b2c b3c) b2c b3c

/-- `GeometricControl::calculateControl` (lines 145-218). -/
noncomputable def geomCalculateControl (param : Parameter)
    (st : CtrlState) (t_now : ℝ) (des : DesiredState) (odom : OdomData)
    (imu : ImuData) : CtrlOutput × CtrlState :=
  let des_acc := desAccOf param des odom
  let b3 := rotCol2 odom.q
  let thrust := vdot des_acc b3 / st.thr2acc
  let q := geomCandidateQ param des odom
  let uq := qmul (qmul imu.q (qinv odom.q)) q
  (⟨thrust, uq⟩,
    { st with timed_thrust := recordCommand st.timed_thrust (t_now, thrust) })

/-! ## Control-law lemmas and claims -/

theorem qinv_of_unit (a : Quat) (h : qnormSq a = 1) :
    qinv a = ⟨a.w, -a.x, -a.y, -a.z⟩ := by
  have h' : a.w ^ 2 + a.x ^ 2 + a.y ^ 2 + a.z ^ 2 = 1 := h
  rw [quat_ext_iff]
  simp only [qinv, qnormSq, h']
  norm_num

theorem qmul_qinv_unit (a : Quat) (h : qnormSq a = 1) (c : Quat) :
    qmul (qmul a (qinv a)) c = c := by
  have h' : a.w ^ 2 + a.x ^ 2 + a.y ^ 2 + a.z ^ 2 = 1 := h
  have hone : qmul a (qinv a) = ⟨1, 0, 0, 0⟩ := by
    rw [qinv_of_unit a h, quat_ext_iff]
    simp only [qmul]
    refine ⟨by linear_combination h', by ring, by ring, by ring⟩
  rw [hone, quat_ext_iff]
  simp only [qmul]
  refine ⟨by ring, by ring, by ring, by ring⟩

/-- C4: for both control laws, whenever the IMU orientation equals the
odometry orientation (a unit quaternion), the commanded attitude `u.q`
equals the pre-correction candidate quaternion exactly: the composition
`imu.q * odom.q.inverse() * q` collapses to `q`. -/
theorem frame_correction_identity (param : Parameter) (st : CtrlState)
    (t_now : ℝ) (des : DesiredState) (odom : OdomData) (imu : ImuData)
    (heq : imu.q = odom.q) (hunit : qnormSq odom.q = 1) :
    (linearCalculateControl param st t_now des odom imu).1.q
      = linearCandidateQ param des odom
    ∧ (geomCalculateControl param st t_now des odom imu).1.q
      = geomCandidateQ param des odom := by
  constructor
  · show qmul (qmul imu.q (qinv odom.q)) (linearCandidateQ param des odom)
      = linearCandidateQ param des odom
    rw [heq]
    exact qmul_qinv_unit odom.q hunit _
  · show qmul (qmul imu.q (qinv odom.q)) (geomCandidateQ param des odom)
      = geomCandidateQ param des odom
    rw [heq]
    exact qmul_qinv_unit odom.q hunit _

theorem frame_correction_identity_witness :
    (linearCalculateControl ⟨1, 1, 1, 1, 1, 1, 10, 1/2⟩ ⟨20, 1000000, []⟩ 0
        ⟨vzero, vzero, vzero, 0⟩ ⟨vzero, vzero, ⟨3/5, 4/5, 0, 0⟩⟩
        ⟨⟨3/5, 4/5, 0, 0⟩⟩).1.q
      = linearCandidateQ ⟨1, 1, 1, 1, 1, 1, 10, 1/2⟩ ⟨vzero, vzero, vzero, 0⟩
          ⟨vzero, vzero, ⟨3/5, 4/5, 0, 0⟩⟩
    ∧ (geomCalculateControl ⟨1, 1, 1, 1, 1, 1, 10, 1/2⟩ ⟨20, 1000000, []⟩ 0
        ⟨vzero, vzero, vzero, 0⟩ ⟨vzero, vzero, ⟨3/5, 4/5, 0, 0⟩⟩
        ⟨⟨3/5, 4/5, 0, 0⟩⟩).1.q
      = geomCandidateQ ⟨1, 1, 1, 1, 1, 1, 10, 1/2⟩ ⟨vzero, vzero, vzero, 0⟩
          ⟨vzero, vzero, ⟨3/5, 4/5, 0, 0⟩⟩ :=
  frame_correction_identity _ _ _ _ _ _ rfl (by norm_num [qnormSq])

/-- C5 counterexample: all hypotheses of the claim hold at this input
(desired velocity/position equal measured, desired acceleration zero,
`thr2acc = gra / hover_percentage = 10 / (1/2) = 20`), yet the geometric
law outputs thrust `-7/50 ≠ 1/2 = hover_percentage`, because the thrust is
the projection of the desired acceleration onto the current body-up axis
and the odometry orientation `(w,x,y,z) = (3/5, 4/5, 0, 0)` is not level. -/
theorem hover_equivalence_counterexample :
    (geomCalculateControl ⟨1, 1, 1, 1, 1, 1, 10, 1/2⟩ ⟨20, 1000000, []⟩ 0
        ⟨vzero, vzero, vzero, 0⟩ ⟨vzero, vzero, ⟨3/5, 4/5, 0, 0⟩⟩
        ⟨⟨3/5, 4/5, 0, 0⟩⟩).1.thrust = -7/50
    ∧ ((-7/50 : ℝ) ≠ 1/2) := by
  constructor
  · show vdot
      (desAccOf ⟨1, 1, 1, 1, 1, 1, 10, 1/2⟩ ⟨vzero, vzero, vzero, 0⟩
        ⟨vzero, vzero, ⟨3/5, 4/5, 0, 0⟩⟩)
      (rotCol2 ⟨3/5, 4/5, 0, 0⟩) / (20:ℝ) = -7/50
    norm_num [desAccOf, vdot, rotCol2, vadd, vsub, vdiagmul, vzero]
  · norm_num

/-- C5 (amended): under the claim's hypotheses (desired velocity and
position equal to measured, desired acceleration zero, gain estimate equal
to `gra / hover_percentage` with positive gravity and hover percentage)
and additionally a level odometry orientation — its body-up axis, the
third column of its rotation matrix, equal to the world vertical — both
control laws output thrust exactly `hover_percentage`.  (Without the added
hypothesis the geometric law fails: `hover_equivalence_counterexample`.) -/
theorem hover_thrust_amended (param : Parameter) (st : CtrlState)
    (t_now : ℝ) (des : DesiredState) (odom : OdomData) (imu : ImuData)
    (hv : des.v = odom.v) (hp : des.p = odom.p) (ha : des.a = vzero)
    (hgain : st.thr2acc = param.gra / param.hover_percentage)
    (hgra : 0 < param.gra) (hhov : 0 < param.hover_percentage)
    (hcol : rotCol2 odom.q = ⟨0, 0, 1⟩) :
    (linearCalculateControl param st t_now des odom imu).1.thrust
      = param.hover_percentage
    ∧ (geomCalculateControl param st t_now des odom imu).1.thrust
      = param.hover_percentage := by
  have hacc : desAccOf param des odom = ⟨0, 0, param.gra⟩ := by
    rw [vec3_ext_iff]
    simp [desAccOf, vadd, vsub, vdiagmul, vzero, hv, hp, ha]
  have hdiv : param.gra / (param.gra / param.hover_percentage)
      = param.hover_percentage := by
    field_simp
  constructor
  · show computeDesiredCollectiveThrustSignal st.thr2acc
      (desAccOf param des odom) = param.hover_percentage
    rw [computeDesiredCollectiveThrustSignal, hacc, hgain]
    exact hdiv
  · show vdot (desAccOf param des odom) (rotCol2 odom.q) / st.thr2acc
      = param.hover_percentage
    rw [hacc, hcol, hgain]
    simpa [vdot] using hdiv

theorem hover_thrust_amended_witness :
    (linearCalculateControl ⟨1, 1, 1, 1, 1, 1, 10, 1/2⟩ ⟨20, 1000000, []⟩ 0
        ⟨vzero, vzero, vzero, 0⟩ ⟨vzero, vzero, ⟨1, 0, 0, 0⟩⟩
        ⟨⟨1, 0, 0, 0⟩⟩).1.thrust = 1/2
    ∧ (geomCalculateControl ⟨1, 1, 1, 1, 1, 1, 10, 1/2⟩ ⟨20, 1000000, []⟩ 0
        ⟨vzero, vzero, vzero, 0⟩ ⟨vzero, vzero, ⟨1, 0, 0, 0⟩⟩
        ⟨⟨1, 0, 0, 0⟩⟩).1.thrust = 1/2 :=
  hover_thrust_amended _ _ _ _ _ _ rfl rfl rfl (by norm_num)
    (by norm_num) (by norm_num)
    (by rw [vec3_ext_iff]; norm_num [rotCol2])

/-- C6: the claim says a zero or negative gain estimate is detected before
the division and signaled as an "invalid thrust mapping" error.  The code
has no such check and no error channel:
`computeDesiredCollectiveThrustSignal` divides unconditionally (line 19),
and at gain `thr2acc = -1` with desired vertical acceleration `10` the
linear law returns normally with the negative thrust `-10` propagated into
`u.thrust`. -/
theorem negative_gain_unguarded :
    computeDesiredCollectiveThrustSignal (-1) ⟨0, 0, 10⟩ = -10
    ∧ (linearCalculateControl ⟨1, 1, 1, 1, 1, 1, 10, 1/2⟩ ⟨-1, 1000000, []⟩ 0
        ⟨vzero, vzero, vzero, 0⟩ ⟨vzero, vzero, ⟨1, 0, 0, 0⟩⟩
        ⟨⟨1, 0, 0, 0⟩⟩).1.thrust = -10
    ∧ ((-10:ℝ) < 0) := by
  refine ⟨by norm_num [computeDesiredCollectiveThrustSignal], ?_, by norm_num⟩
  show computeDesiredCollectiveThrustSignal (-1 : ℝ)
    (desAccOf ⟨1, 1, 1, 1, 1, 1, 10, 1/2⟩ ⟨vzero, vzero, vzero, 0⟩
      ⟨vzero, vzero, ⟨1, 0, 0, 0⟩⟩) = -10
  norm_num [computeDesiredCollectiveThrustSignal, desAccOf, vadd, vsub,
    vdiagmul, vzero]

theorem vnormalized_zero : vnormalized vzero = vzero := by
  rw [vec3_ext_iff]
  simp [vnormalized, vzero]

theorem vcross_zero_left (v : Vec3) : vcross vzero v = vzero := by
  rw [vec3_ext_iff]
  simp [vcross, vzero]

theorem quatFromMat_zero : quatFromMat vzero vzero vzero = ⟨0, 1/2, 0, 0⟩ := by
  rw [quat_ext_iff]
  norm_num [quatFromMat, vzero, Real.sqrt_one]

theorem qinv_one : qinv ⟨1, 0, 0, 0⟩ = ⟨1, 0, 0, 0⟩ := by
  rw [quat_ext_iff]
  norm_num [qinv, qnormSq]

theorem qmul_one_left (c : Quat) : qmul ⟨1, 0, 0, 0⟩ c = c := by
  rw [quat_ext_iff]
  simp only [qmul]
  refine ⟨by ring, by ring, by ring, by ring⟩

/-- C7: the claim says near-zero / near-parallel desired acceleration is
guarded in the normalizations producing b3c and b2c, and a "degenerate
attitude geometry" error is reported.  The code guards nothing and has no
error channel: at a zero desired acceleration both normalizations are
applied to the zero vector (yielding NaN in floating point; the zero
vector under the exact-arithmetic convention), the rotation "matrix" fed
to the quaternion conversion is all zeros, and the call returns normally
with the meaningless non-unit attitude `(w,x,y,z) = (0, 1/2, 0, 0)`
propagated into `u.q`. -/
theorem degenerate_geometry_unguarded :
    geomB3c ⟨1, 1, 1, 1, 1, 1, 10, 1/2⟩ ⟨vzero, vzero, ⟨0, 0, -10⟩, 0⟩
        ⟨vzero, vzero, ⟨1, 0, 0, 0⟩⟩ = vzero
    ∧ geomB2c ⟨1, 1, 1, 1, 1, 1, 10, 1/2⟩ ⟨vzero, vzero, ⟨0, 0, -10⟩, 0⟩
        ⟨vzero, vzero, ⟨1, 0, 0, 0⟩⟩ = vzero
    ∧ (geomCalculateControl ⟨1, 1, 1, 1, 1, 1, 10, 1/2⟩ ⟨20, 1000000, []⟩ 0
        ⟨vzero, vzero, ⟨0, 0, -10⟩, 0⟩ ⟨vzero, vzero, ⟨1, 0, 0, 0⟩⟩
        ⟨⟨1, 0, 0, 0⟩⟩).1.q = ⟨0, 1/2, 0, 0⟩
    ∧ qnormSq ⟨0, 1/2, 0, 0⟩ ≠ 1 := by
  have hacc : desAccOf ⟨1, 1, 1, 1, 1, 1, 10, 1/2⟩
      ⟨vzero, vzero, ⟨0, 0, -10⟩, 0⟩ ⟨vzero, vzero, ⟨1, 0, 0, 0⟩⟩ = vzero := by
    rw [vec3_ext_iff]
    norm_num [desAccOf, vadd, vsub, vdiagmul, vzero]
  have hb3 : geomB3c ⟨1, 1, 1, 1, 1, 1, 10, 1/2⟩
      ⟨vzero, vzero, ⟨0, 0, -10⟩, 0⟩ ⟨vzero, vzero, ⟨1, 0, 0, 0⟩⟩ = vzero := by
    rw [geomB3c, hacc, vnormalized_zero]
  have hb2 : geomB2c ⟨1, 1, 1, 1, 1, 1, 10, 1/2⟩
      ⟨vzero, vzero, ⟨0, 0, -10⟩, 0⟩ ⟨vzero, vzero, ⟨1, 0, 0, 0⟩⟩ = vzero := by
    rw [geomB2c, hb3, vcross_zero_left, vnormalized_zero]
  have hcand : geomCandidateQ ⟨1, 1, 1, 1, 1, 1, 10, 1/2⟩
      ⟨vzero, vzero, ⟨0, 0, -10⟩, 0⟩ ⟨vzero, vzero, ⟨1, 0, 0, 0⟩⟩
      = ⟨0, 1/2, 0, 0⟩ := by
    show quatFromMat
      (vcross (geomB2c ⟨1, 1, 1, 1, 1, 1, 10, 1/2⟩
          ⟨vzero, vzero, ⟨0, 0, -10⟩, 0⟩ ⟨vzero, vzero, ⟨1, 0, 0, 0⟩⟩)
        (geomB3c ⟨1, 1, 1, 1, 1, 1, 10, 1/2⟩
          ⟨vzero, vzero, ⟨0, 0, -10⟩, 0⟩ ⟨vzero, vzero, ⟨1, 0, 0, 0⟩⟩))
      (geomB2c ⟨1, 1, 1, 1, 1, 1, 10, 1/2⟩
        ⟨vzero, vzero, ⟨0, 0, -10⟩, 0⟩ ⟨vzero, vzero, ⟨1, 0, 0, 0⟩⟩)
      (geomB3c ⟨1, 1, 1, 1, 1, 1, 10, 1/2⟩
        ⟨vzero, vzero, ⟨0, 0, -10⟩, 0⟩ ⟨vzero, vzero, ⟨1, 0, 0, 0⟩⟩)
      = ⟨0, 1/2, 0, 0⟩
    rw [hb3, hb2, vcross_zero_left, quatFromMat_zero]
  refine ⟨hb3, hb2, ?_, by norm_num [qnormSq]⟩
  show qmul (qmul (⟨1, 0, 0, 0⟩ : Quat) (qinv ⟨1, 0, 0, 0⟩))
    (geomCandidateQ ⟨1, 1, 1, 1, 1, 1, 10, 1/2⟩
      ⟨vzero, vzero, ⟨0, 0, -10⟩, 0⟩ ⟨vzero, vzero, ⟨1, 0, 0, 0⟩⟩)
    = ⟨0, 1/2, 0, 0⟩
  rw [hcand, qinv_one, qmul_one_left, qmul_one_left]

/-- C10: neither control-law call alters the learned mapping: the gain
`thr2acc_` and the covariance `P_` are returned unchanged; the only
estimator state mutated is the timed-thrust history, to which exactly one
`(timestamp, thrust)` sample is appended at the back before evicting from
the front until at most 100 samples remain (so the new history is the
matching suffix of the appended history, of length at most 100). -/
theorem calculateControl_frame (param : Parameter) (st : CtrlState)
    (t_now : ℝ) (des : DesiredState) (odom : OdomData) (imu : ImuData) :
    ((linearCalculateControl param st t_now des odom imu).2.thr2acc
        = st.thr2acc
      ∧ (linearCalculateControl param st t_now des odom imu).2.P = st.P
      ∧ (linearCalculateControl param st t_now des odom imu).2.timed_thrust
          = (st.timed_thrust ++
              [(t_now,
                (linearCalculateControl param st t_now des odom imu).1.thrust)]).drop
              (st.timed_thrust.length + 1 - 100)
      ∧ (linearCalculateControl param st t_now des odom
            imu).2.timed_thrust.length ≤ 100)
    ∧ ((geomCalculateControl param st t_now des odom imu).2.thr2acc
        = st.thr2acc
      ∧ (geomCalculateControl param st t_now des odom imu).2.P = st.P
      ∧ (geomCalculateControl param st t_now des odom imu).2.timed_thrust
          = (st.timed_thrust ++
              [(t_now,
                (geomCalculateControl param st t_now des odom imu).1.thrust)]).drop
              (st.timed_thrust.length + 1 - 100)
      ∧ (geomCalculateControl param st t_now des odom
            imu).2.timed_thrust.length ≤ 100) := by
  refine ⟨⟨rfl, rfl, ?_, ?_⟩, rfl, rfl, ?_, ?_⟩
  · show recordCommand st.timed_thrust _ = _
    rw [recordCommand, evictOver100_eq_drop]
    congr 1
    simp only [List.length_append, List.length_cons, List.length_nil]
  · show (recordCommand st.timed_thrust _).length ≤ 100
    rw [recordCommand]
    exact evictOver100_length_le _
  · show recordCommand st.timed_thrust _ = _
    rw [recordCommand, evictOver100_eq_drop]
    congr 1
    simp only [List.length_append, List.length_cons, List.length_nil]
  · show (recordCommand st.timed_thrust _).length ≤ 100
    rw [recordCommand]
    exact evictOver100_length_le _

/-- C3: the thrust-sample history never exceeds 100 entries — after the
push-and-evict at the end of either `calculateControl` the history holds
at most 100 samples — and recording 150 samples into an empty history
leaves exactly the 100 newest, the 50 oldest evicted. -/
theorem history_bound :
    (∀ (param : Parameter) (st : CtrlState) (t_now : ℝ)
        (des : DesiredState) (odom : OdomData) (imu : ImuData),
      (linearCalculateControl param st t_now des odom
          imu).2.timed_thrust.length ≤ 100
      ∧ (geomCalculateControl param st t_now des odom
          imu).2.timed_thrust.length ≤ 100)
    ∧ ∀ (l : List (ℝ × ℝ)), l.length = 150 →
        l.foldl recordCommand [] = l.drop 50
        ∧ (l.foldl recordCommand []).length = 100 := by
  constructor
  · intro param st t_now des odom imu
    exact ⟨evictOver100_length_le _, evictOver100_length_le _⟩
  · intro l hl
    have h50 : l.length - 100 = 50 := by omega
    rw [foldl_recordCommand_eq_drop, h50]
    exact ⟨rfl, by rw [List.length_drop, hl]⟩

theorem history_bound_witness :
    ((List.range 150).map (fun i : ℕ => ((i : ℝ), (0 : ℝ)))).foldl
        recordCommand []
      = ((List.range 150).map (fun i : ℕ => ((i : ℝ), (0 : ℝ)))).drop 50
    ∧ (((List.range 150).map (fun i : ℕ => ((i : ℝ), (0 : ℝ)))).foldl
        recordCommand []).length = 100 :=
  history_bound.2 _ (by rw [List.length_map, List.length_range])

end Px4ctrl
